/-
Verification of the product-import pipeline (filter selection, condition
matching, markup application, import-session progress) against its source.

The embedding translates the route module's pure logic into Lean:
JavaScript numbers are modelled as ℚ (with `Option ℚ` where `NaN` or
`undefined` can arise), strings as `String`, objects as structures or
association lists, and the effectful batch loop as explicit state passing
over an abstract per-item outcome.

The sealing of the `Rat` arithmetic operations is lifted locally so that
concrete runs of the embedded program evaluate by `decide`; this changes
no definition and no proof passes the kernel differently because of it.
-/
import Mathlib

set_option allowUnsafeReducibility true
attribute [local semireducible] Rat.add Rat.mul Rat.sub Rat.inv Rat.ofScientific

namespace SupplierImport

/-! ## String primitives

The JavaScript string methods are re-implemented over `List Char` by
structural recursion so that every definition evaluates by kernel
reduction (the inputs in this repository are ASCII). -/

/-- Accumulating decimal-digit evaluator used by the number parsers. -/
def digitsToNat (acc : Nat) : List Char → Nat
  | [] => acc
  | c :: cs => digitsToNat (acc * 10 + (c.toNat - '0'.toNat)) cs

/-- Lowercasing of one ASCII character, as `toLowerCase` does. -/
def charLower (c : Char) : Char :=
  if 65 ≤ c.toNat ∧ c.toNat ≤ 90 then Char.ofNat (c.toNat + 32) else c

/-- JavaScript `s.toLowerCase()`. -/
def strLower (s : String) : String :=
  String.mk (s.data.map charLower)

/-- JavaScript `s.trim()`: strip leading and trailing whitespace. -/
def strTrim (s : String) : String :=
  String.mk (((s.data.dropWhile Char.isWhitespace).reverse.dropWhile Char.isWhitespace).reverse)

/-- JavaScript `s.startsWith(t)`. -/
def strStartsWith (s t : String) : Bool :=
  t.data.isPrefixOf s.data

/-- JavaScript `s.endsWith(t)`. -/
def strEndsWith (s t : String) : Bool :=
  t.data.isSuffixOf s.data

/-- Worker for `strSplitOn`: scans the character list, cutting at each
leftmost occurrence of the (non-empty) separator; the fuel argument, set
to the input length plus one, makes the recursion structural. -/
def splitGo (sep : List Char) : Nat → List Char → List Char → List (List Char)
  | _, acc, [] => [acc.reverse]
  | 0, acc, rest => [acc.reverse ++ rest]
  | fuel + 1, acc, c :: cs =>
    if sep.isPrefixOf (c :: cs) then
      acc.reverse :: splitGo sep fuel [] ((c :: cs).drop sep.length)
    else
      splitGo sep fuel (c :: acc) cs

/-- JavaScript `s.split(sep)` for a non-empty separator (the source only
splits on `"-"`, `"."`, `","` and `"::"`). -/
def strSplitOn (s sep : String) : List String :=
  if sep = "" then [s]
  else (splitGo sep.data (s.data.length + 1) [] s.data).map String.mk

/-- Decimal parsing of array indices (`arr["12"]`): all-digit strings. -/
def listToNatQ (cs : List Char) : Option Nat :=
  if ¬cs.isEmpty ∧ cs.all Char.isDigit then some (digitsToNat 0 cs) else none

/-- Joining of a string list, as `JSON`-free `Array.prototype.toString`
(elements separated by `","`). -/
def strJoinComma (l : List String) : String :=
  String.mk (List.intercalate [','] (l.map String.data))

/-! ## JavaScript number primitives

The source relies on `parseFloat`, `Number`, `toFixed(2)` and
`Number.prototype.toString`; they are modelled here over ℚ.
-/

/-- JavaScript `parseFloat` on decimal literals: skip leading whitespace,
optional sign, digits with an optional fractional part; any trailing
characters are ignored (longest-prefix semantics).  `none` models `NaN`
(no digit could be consumed).  Exponent notation and `Infinity`, which the
repository never feeds to `parseFloat`, are not modelled. -/
def parseFloatQ (s : String) : Option ℚ :=
  let cs := s.data.dropWhile (fun c => c.isWhitespace)
  let signAndRest : Bool × List Char :=
    match cs with
    | '-' :: rest => (true, rest)
    | '+' :: rest => (false, rest)
    | _ => (false, cs)
  let neg := signAndRest.1
  let cs1 := signAndRest.2
  let intPart := cs1.takeWhile Char.isDigit
  let afterInt := cs1.dropWhile Char.isDigit
  let fracPart :=
    match afterInt with
    | '.' :: r => r.takeWhile Char.isDigit
    | _ => []
  if intPart.isEmpty ∧ fracPart.isEmpty then none
  else
    let mag : ℚ :=
      (digitsToNat 0 intPart : ℚ) + (digitsToNat 0 fracPart : ℚ) / ((10 : ℚ) ^ fracPart.length)
    some (if neg then -mag else mag)

/-- JavaScript `Number(...)` on strings: the whole (trimmed) string must be
a decimal literal; the empty / all-whitespace string converts to `0`;
anything else is `NaN`, modelled as `none`.  Hex and exponent notation,
never used by the repository's inputs, are not modelled. -/
def jsNumber (s : String) : Option ℚ :=
  let t := strTrim s
  if t = "" then some 0
  else
    let cs := t.data
    let signAndRest : Bool × List Char :=
      match cs with
      | '-' :: rest => (true, rest)
      | '+' :: rest => (false, rest)
      | _ => (false, cs)
    let neg := signAndRest.1
    let cs1 := signAndRest.2
    let intPart := cs1.takeWhile Char.isDigit
    let afterInt := cs1.dropWhile Char.isDigit
    let fracAndRest : List Char × List Char :=
      match afterInt with
      | '.' :: r => (r.takeWhile Char.isDigit, r.dropWhile Char.isDigit)
      | _ => ([], afterInt)
    let fracPart := fracAndRest.1
    let leftover := fracAndRest.2
    if (intPart.isEmpty ∧ fracPart.isEmpty) ∨ ¬leftover.isEmpty then none
    else
      let mag : ℚ :=
        (digitsToNat 0 intPart : ℚ) + (digitsToNat 0 fracPart : ℚ) / ((10 : ℚ) ^ fracPart.length)
      some (if neg then -mag else mag)

/-- JavaScript `x.toFixed(2)`: round to the nearest hundredth (ties to the
larger candidate, which is exactly Mathlib's `round`) and print with two
fraction digits. -/
def toFixed2 (q : ℚ) : String :=
  let scaled : ℤ := round (q * 100)
  let a := scaled.natAbs
  let frac := a % 100
  (if scaled < 0 then "-" else "") ++ toString (a / 100) ++ "." ++
    (if frac < 10 then "0" ++ toString frac else toString frac)

/-- JavaScript `x.toFixed(2)` lifted over a possibly-`NaN` number:
`(NaN).toFixed(2)` is the string `"NaN"`. -/
def toFixed2Opt : Option ℚ → String
  | some q => toFixed2 q
  | none => "NaN"

/-- JavaScript `Number.prototype.toString` for the finite decimal numbers
produced by the parsers above: minimal decimal representation with no
trailing fractional zeros (`(10).toString() = "10"`,
`(10.5).toString() = "10.5"`). -/
def decimalString (q : ℚ) : String :=
  match (List.range 41).find? (fun k => (q * (10 : ℚ) ^ k).den == 1) with
  | some k =>
    let m := (q * (10 : ℚ) ^ k).num
    if k = 0 then toString m
    else
      let a := m.natAbs
      let intPart := a / 10 ^ k
      let fracStr := toString (a % 10 ^ k)
      (if m < 0 then "-" else "") ++ toString intPart ++ "." ++
        (String.mk (List.replicate (k - fracStr.length) '0')) ++ fracStr
  | none => toString q

/-- JavaScript `a || b` for a possibly-absent string `a` (`undefined` and
`""` are the falsy cases that occur in the source). -/
def jsOrS (a : Option String) (b : String) : String :=
  match a with
  | some s => if s = "" then b else s
  | none => b

/-- JavaScript `s.includes(t)`. -/
def strIncludes (s t : String) : Bool :=
  decide (t.data <:+: s.data)

/-! ## Data model

The canonical in-memory product shape produced by `processCsvData` and
`fetchApiData` (keys `title`, `descriptionHtml`, `vendor`, `productType`,
`tags`, `status`, `variants`), together with the markup metadata written
by `applyMarkupRules`.  The markup metadata keys do not exist on a product
at the only point where conditions are evaluated (before any mutation), so
`getProp` below does not expose them. -/

structure Variant where
  price : String
  compareAtPrice : String
  sku : String
  barcode : String
  inventoryQuantity : String
  image_url : String
deriving DecidableEq, Repr

structure Product where
  title : String
  descriptionHtml : String
  vendor : String
  productType : String
  tags : List String
  status : String
  variants : List Variant
  markupApplied : Bool
  markupType : String
  markupValue : String
deriving DecidableEq, Repr

/-- One filter / markup condition, as supplied in `markupConfig.conditions`.
The `attr` field embeds the source's legacy `condition.attribute` fallback
key; an absent key is the empty string. -/
structure Condition where
  field : String
  attr : String
  operator : String
  value : String
  markupType : String
  markupValue : String
deriving DecidableEq, Repr

structure MarkupConfig where
  conditionsType : String
  conditions : List Condition
deriving DecidableEq, Repr

/-- Values a product property can resolve to inside `checkCondition`:
plain strings, the tags string array, a variant object, or the variants
array.  `Option JSVal` stands for a possibly-`undefined` lookup. -/
inductive JSVal where
  | str (s : String)
  | strList (l : List String)
  | variantObj (v : Variant)
  | variantList (l : List Variant)
deriving DecidableEq, Repr

/-- JavaScript `String(x)` on the values above (arrays join with `","`,
objects print `"[object Object]"`). -/
def jsValToString : JSVal → String
  | .str s => s
  | .strList l => strJoinComma l
  | .variantObj _ => "[object Object]"
  | .variantList l => strJoinComma (l.map (fun _ => "[object Object]"))

/-- Generic property lookup `product[field]` on the canonical product. -/
def getProp (p : Product) : String → Option JSVal
  | "title" => some (.str p.title)
  | "descriptionHtml" => some (.str p.descriptionHtml)
  | "vendor" => some (.str p.vendor)
  | "productType" => some (.str p.productType)
  | "tags" => some (.strList p.tags)
  | "status" => some (.str p.status)
  | "variants" => some (.variantList p.variants)
  | _ => none

/-- One step `value?.[part]` of the dotted-path walk in `checkCondition`
(array indexing by a decimal string, variant object fields, and numeric
indexing into strings or string arrays). -/
def jsIndex : JSVal → String → Option JSVal
  | .variantList l, k => (listToNatQ k.data).bind (fun i => (l.get? i).map .variantObj)
  | .strList l, k => (listToNatQ k.data).bind (fun i => (l.get? i).map .str)
  | .str s, k => (listToNatQ k.data).bind (fun i => (s.data.get? i).map (fun c => .str (String.mk [c])))
  | .variantObj v, "price" => some (.str v.price)
  | .variantObj v, "compareAtPrice" => some (.str v.compareAtPrice)
  | .variantObj v, "sku" => some (.str v.sku)
  | .variantObj v, "barcode" => some (.str v.barcode)
  | .variantObj v, "inventoryQuantity" => some (.str v.inventoryQuantity)
  | .variantObj v, "image_url" => some (.str v.image_url)
  | _, _ => none

/-- Dotted-field walk of `checkCondition`: `productValue = product;` then
`productValue = productValue?.[part]` for each dot-separated part.  The
empty-parts case cannot arise (`split` always yields at least one part). -/
def walkPath (p : Product) : List String → Option JSVal
  | [] => none
  | k :: rest => rest.foldl (fun acc part => acc.bind (fun v => jsIndex v part)) (getProp p k)

/-- Field-name selection `condition.field || condition.attribute`. -/
def fieldOf (c : Condition) : String :=
  if c.field = "" then c.attr else c.field

/-- Field resolution of `checkCondition` (part_000 lines 1060-1130): the
generic lookup, then the dotted-path walk, then the field-specific
overrides for price, title, SKU, tags, vendor and type, in source order.
The canonical product has no top-level `price` or `sku` key, so the
`else if (product.price)` / `else if (product.sku)` fallbacks keep the
previous value. -/
def resolveFieldValue (p : Product) (field : String) : Option JSVal :=
  let pv := getProp p field
  let pv := if field ≠ "" ∧ field.data.contains '.' then walkPath p (strSplitOn field ".") else pv
  let pv :=
    if field = "price" ∨ field = "Variant Price" then
      match p.variants.head? with
      | some v0 => if v0.price ≠ "" then some (.str v0.price) else pv
      | none => pv
    else pv
  let pv := if field = "Title" ∨ field = "title" then some (.str p.title) else pv
  let pv :=
    if field = "SKU" ∨ field = "sku" then
      match p.variants.head? with
      | some v0 => if v0.sku ≠ "" then some (.str v0.sku) else pv
      | none => pv
    else pv
  let pv := if field = "Tags" ∨ field = "tags" ∨ field = "tag" then some (.strList p.tags) else pv
  let pv := if field = "Vendor" ∨ field = "vendor" then some (.str p.vendor) else pv
  let pv := if field = "Type" ∨ field = "type" then some (.str p.productType) else pv
  pv

/-- Tags-array comparison branch of `checkCondition` (lines 1138-1175).
`cvs` is the already lowered-and-trimmed condition value; tags themselves
are lowered but not trimmed, exactly as in the source. -/
def checkTagsCondition (tags : List String) (operator cvs : String) : Bool :=
  match operator with
  | "eq" | "equals" => tags.any (fun tag => strLower tag == cvs)
  | "neq" | "not_equals" => !(tags.any (fun tag => strLower tag == cvs))
  | "starts" | "starts_with" => tags.any (fun tag => strStartsWith (strLower tag) cvs)
  | "ends" | "ends_with" => tags.any (fun tag => strEndsWith (strLower tag) cvs)
  | "contains" => tags.any (fun tag => strIncludes (strLower tag) cvs)
  | "ncontains" | "not_contains" => !(tags.any (fun tag => strIncludes (strLower tag) cvs))
  | _ => false

/-- Boolean comparison `a >= b` on possibly-`NaN` numbers (any comparison
involving `NaN` is false). -/
def optGe : Option ℚ → Option ℚ → Bool
  | some a, some b => decide (b ≤ a)
  | _, _ => false

/-- Boolean comparison `a <= b` on possibly-`NaN` numbers. -/
def optLe : Option ℚ → Option ℚ → Bool
  | some a, some b => decide (a ≤ b)
  | _, _ => false

/-- The `between` branch (lines 1209-1214):
`const [min, max] = conditionValueStr.split('-').map(Number)` followed by
`numValue >= min && (max === 0 || numValue <= max)`.  A missing second
part (`undefined`) behaves exactly like `NaN` in both the `=== 0` test and
the comparison, so both collapse to `none`. -/
def betweenCheck (productValueStr conditionValueStr : String) : Bool :=
  let parts := (strSplitOn conditionValueStr "-").map jsNumber
  let mn := (parts.get? 0).getD none
  let mx := (parts.get? 1).getD none
  let nv := parseFloatQ productValueStr
  optGe nv mn && (decide (mx = some 0) || optLe nv mx)

/-- String-comparison branch of `checkCondition` (lines 1178-1218); both
arguments arrive trimmed as in the source. -/
def checkStringCondition (productValueStr conditionValueStr operator : String) : Bool :=
  match operator with
  | "eq" | "equals" => strLower productValueStr == strLower conditionValueStr
  | "neq" | "not_equals" => strLower productValueStr != strLower conditionValueStr
  | "starts" | "starts_with" => strStartsWith (strLower productValueStr) (strLower conditionValueStr)
  | "ends" | "ends_with" => strEndsWith (strLower productValueStr) (strLower conditionValueStr)
  | "contains" => strIncludes (strLower productValueStr) (strLower conditionValueStr)
  | "ncontains" | "not_contains" => !(strIncludes (strLower productValueStr) (strLower conditionValueStr))
  | "between" => betweenCheck productValueStr conditionValueStr
  | _ => false

/-- Translation of `checkCondition(product, condition)` (lines 1048-1222):
resolve the field value; `undefined`/`null` fails the condition; a
tags-named field holding an array uses the array branch; everything else
is compared as trimmed strings. -/
def checkCondition (product : Product) (condition : Condition) : Bool :=
  let field := fieldOf condition
  match resolveFieldValue product field with
  | none => false
  | some pv =>
    if field = "Tags" ∨ field = "tags" ∨ field = "tag" then
      match pv with
      | .strList tags => checkTagsCondition tags condition.operator (strLower (strTrim condition.value))
      | _ => checkStringCondition (strTrim (jsValToString pv)) (strTrim condition.value) condition.operator
    else
      checkStringCondition (strTrim (jsValToString pv)) (strTrim condition.value) condition.operator

/-! ## Markup engine

Translation of `applyMarkupRules(product, markupConfig)` (part_000 lines
1574-1665).  The in-place mutation of `product.variants[0].price` and of
the markup metadata becomes a returned product; the unguarded write
`product.variants[0].price = ...` throws a `TypeError` when the product
has no variants, modelled by an `Option` result (`none` = thrown). -/

/-- Markup amount `parseFloat(condition.markupValue || condition.value || '0')`
(line 1617); `none` models `NaN`. -/
def condMarkupValue (c : Condition) : Option ℚ :=
  parseFloatQ (if c.markupValue ≠ "" then c.markupValue else if c.value ≠ "" then c.value else "0")

/-- Test `markupType === 'percent' || markupType === 'percentage'`. -/
def markupIsPercent (c : Condition) : Bool :=
  c.markupType == "percent" || c.markupType == "percentage"

/-- Test `markupType === 'fixed'`. -/
def markupIsFixed (c : Condition) : Bool :=
  c.markupType == "fixed"

/-- Current price `parseFloat(product.variants?.[0]?.price || '0')`
(line 1627): a missing variant or empty price string falls back to `'0'`;
`none` models `NaN` from an unparseable price. -/
def currentPriceOf (p : Product) : Option ℚ :=
  let s := ((p.variants.head?).map Variant.price).getD ""
  parseFloatQ (if s = "" then "0" else s)

/-- JavaScript strict inequality `a !== b` on possibly-`NaN` numbers
(`NaN !== x` is always true). -/
def jsNeq : Option ℚ → Option ℚ → Bool
  | some a, some b => decide (a ≠ b)
  | _, _ => true

/-- Assignment `product.variants[0].price = s` (line 1645); `none` models
the `TypeError` thrown when there is no first variant. -/
def setFirstPrice (p : Product) (s : String) : Option Product :=
  match p.variants with
  | [] => none
  | v0 :: vs => some { p with variants := { v0 with price := s } :: vs }

/-- Markup-application write-back (lines 1645-1651): set the first
variant's price and the markup metadata, then break out of the loop. -/
def writeMarkup (p : Product) (newPrice : Option ℚ) (c : Condition) (v : ℚ) : Option Product :=
  (setFirstPrice p (toFixed2Opt newPrice)).map fun pW =>
    { pW with
      markupApplied := true
      markupType := if markupIsPercent c then "percentage" else "fixed"
      markupValue := decimalString v }

/-- Condition scan of `applyMarkupRules` (lines 1613-1654): walk the
conditions in declaration order; for each matching condition compute the
markup; an invalid markup type/value `continue`s, a computed price equal
to the current one falls through to the next condition, and a written
price `break`s the loop. -/
def applyLoop (product : Product) : List Condition → Option Product
  | [] => some product
  | condition :: rest =>
    if checkCondition product condition then
      match condMarkupValue condition with
      | some markupValue =>
        if markupIsPercent condition ∧ 0 < markupValue then
          let currentPrice := currentPriceOf product
          let newPrice := currentPrice.map (fun cp => cp * (1 + markupValue / 100))
          if jsNeq newPrice currentPrice then writeMarkup product newPrice condition markupValue
          else applyLoop product rest
        else if markupIsFixed condition ∧ 0 < markupValue then
          let currentPrice := currentPriceOf product
          let newPrice := currentPrice.map (fun cp => cp + markupValue)
          if jsNeq newPrice currentPrice then writeMarkup product newPrice condition markupValue
          else applyLoop product rest
        else applyLoop product rest
      | none => applyLoop product rest
    else applyLoop product rest

/-- Grouping check (lines 1595-1603): `every` under `conditionsType ===
'all'`, `some` otherwise. -/
def conditionsMatchB (product : Product) (markupConfig : MarkupConfig) : Bool :=
  if markupConfig.conditionsType == "all" then
    markupConfig.conditions.all (fun condition => checkCondition product condition)
  else
    markupConfig.conditions.any (fun condition => checkCondition product condition)

/-- Translation of `applyMarkupRules` (lines 1574-1665): no conditions is
a no-op; otherwise the condition scan runs only when the grouped
conditions match. -/
def applyMarkupRules (product : Product) (markupConfig : MarkupConfig) : Option Product :=
  if markupConfig.conditions.isEmpty then some product
  else if conditionsMatchB product markupConfig then
    applyLoop product markupConfig.conditions
  else some product

/-! ### Derived first-match characterisation used by the theorems -/

/-- A condition "successfully applies" to a product: it matches, its
markup type and value are valid, and the computed price differs from the
current one (under the JavaScript `!==` with `NaN` semantics). -/
def appliesTo (p : Product) (c : Condition) : Bool :=
  checkCondition p c &&
    match condMarkupValue c with
    | some v =>
      if markupIsPercent c ∧ 0 < v then
        jsNeq ((currentPriceOf p).map (fun cp => cp * (1 + v / 100))) (currentPriceOf p)
      else if markupIsFixed c ∧ 0 < v then
        jsNeq ((currentPriceOf p).map (fun cp => cp + v)) (currentPriceOf p)
      else false
    | none => false

/-- Effect of the one condition that successfully applies. -/
def applyOne (p : Product) (c : Condition) : Option Product :=
  match condMarkupValue c with
  | some v =>
    if markupIsPercent c then
      writeMarkup p ((currentPriceOf p).map (fun cp => cp * (1 + v / 100))) c v
    else
      writeMarkup p ((currentPriceOf p).map (fun cp => cp + v)) c v
  | none => some p

/-! ## Selection filter and source transformers

Translation of `processCsvData` (lines 1224-1342), `fetchApiData` (lines
1344-1572, minus the network fetch and body extraction, which happen
before the logic modelled here) and `limitTagsArray` (lines 190-197).
CSV rows and API items are JavaScript objects with string values,
modelled as association lists. -/

/-- A CSV row or API item: a string-valued JavaScript object. -/
abbrev Item : Type := List (String × String)

/-- Property read `item[key]`; `none` is `undefined`. -/
def itemGet (it : Item) (k : String) : Option String :=
  (List.find? (fun p => p.1 == k) it).map (fun p => p.2)

/-- Property write `item[key] = v`. -/
def itemSet (it : Item) (k v : String) : Item :=
  if (List.find? (fun p => p.1 == k) it).isSome then
    List.map (fun p => if p.1 == k then (k, v) else p) it
  else it ++ [(k, v)]

/-- Destructuring `const [key, value] = token.split('::')`; a missing
part is `undefined`, which the `if (!key || !value)` guards treat exactly
like the empty string. -/
def parseToken (token : String) : String × String :=
  let parts := strSplitOn token "::"
  ((parts.get? 0).getD "", (parts.get? 1).getD "")

/-- The shared matcher of the CSV and API selection filters (lines
1263-1284 and 1455-1479): exact case-insensitive equality, substring, or
reverse substring, on the trimmed values; a missing record value reads as
`''`. -/
def valueMatches (rawValue : Option String) (value : String) : Bool :=
  let rowValue := strTrim (jsOrS rawValue "")
  let filterValue := strTrim value
  strLower rowValue == strLower filterValue
    || strIncludes (strLower rowValue) (strLower filterValue)
    || strIncludes (strLower filterValue) (strLower rowValue)

/-- Record-against-token matching at a parsed key/value pair. -/
def rowMatches (row : Item) (key value : String) : Bool :=
  valueMatches (itemGet row key) value

/-- One `selectedIndices.add(index)` on the insertion-ordered view of the
JavaScript `Set` (already-present elements keep their position). -/
def insertIdx (s : List Nat) (i : Nat) : List Nat :=
  if s.contains i then s else s ++ [i]

/-- The `csvData.rows.forEach((row, index) => ...)` scan for one token
(lines 1263-1284), accumulating matching row indices into the set. -/
def forEachRowsAux (key value : String) : List Item → Nat → List Nat → List Nat
  | [], _, s => s
  | row :: rest, idx, s =>
    forEachRowsAux key value rest (idx + 1) (if rowMatches row key value then insertIdx s idx else s)

/-- The token loop of the CSV selection (lines 1256-1285): malformed
tokens are skipped, each valid token scans all rows. -/
def collectIndices (rows : List Item) (tokens : List String) : List Nat :=
  tokens.foldl
    (fun s token =>
      let kv := parseToken token
      if kv.1 = "" ∨ kv.2 = "" then s else forEachRowsAux kv.1 kv.2 rows 0 s)
    []

/-- CSV row selection (lines 1245-1297): with no selected values all rows
pass; otherwise `Array.from(selectedIndices).map(index => rows[index])`,
in the insertion order of the index set. -/
def csvFilteredRows (rows : List Item) (selectedValues : List String) : List Item :=
  if selectedValues.length > 0 then
    (collectIndices rows selectedValues).filterMap (fun i => rows.get? i)
  else rows

/-- The selector values pushed as extra tags (lines 1319-1332 for CSV,
1529-1543 for the API): the value part of every well-formed token, in
token order, duplicates kept. -/
def filterTagsOf (selectedValues : List String) : List String :=
  selectedValues.filterMap (fun token =>
    let kv := parseToken token
    if kv.1 ≠ "" ∧ kv.2 ≠ "" then some kv.2 else none)

/-- Translation of `limitTagsArray(tags, maxLength)` (lines 190-197). -/
def limitTagsArray (tags : List String) (maxLength : Nat) : List String :=
  if tags.length ≤ maxLength then tags else tags.take maxLength

/-- Row-to-product mapping of `processCsvData` (lines 1300-1335),
including the appended filter tags.  The numeric `0` default of
`inventoryQuantity` is modelled by its string form. -/
def rowToProduct (selectedValues : List String) (index : Nat) (row : Item) : Product :=
  let tags0 :=
    match itemGet row "Tags" with
    | some t => if t = "" then [] else (strSplitOn t ",").map strTrim
    | none => []
  let filterTags := filterTagsOf selectedValues
  let tags := if selectedValues.length > 0 ∧ filterTags ≠ [] then tags0 ++ filterTags else tags0
  { title := jsOrS (itemGet row "Title") (jsOrS (itemGet row "title") ("Product " ++ toString (index + 1)))
    descriptionHtml := jsOrS (itemGet row "Description") (jsOrS (itemGet row "description") "")
    vendor := jsOrS (itemGet row "Vendor") (jsOrS (itemGet row "vendor") "Default Vendor")
    productType := jsOrS (itemGet row "Type") (jsOrS (itemGet row "type") "Default Type")
    tags := tags
    status := "DRAFT"
    variants := [{
      price := jsOrS (itemGet row "Variant Price") (jsOrS (itemGet row "price") "10.00")
      compareAtPrice := jsOrS (itemGet row "Variant Compare At Price") (jsOrS (itemGet row "compareAtPrice") "")
      sku := jsOrS (itemGet row "SKU") (jsOrS (itemGet row "sku") ("SKU-" ++ toString (index + 1)))
      barcode := jsOrS (itemGet row "Variant Barcode") (jsOrS (itemGet row "barcode") "")
      inventoryQuantity := jsOrS (itemGet row "Variant Inventory Quantity") (jsOrS (itemGet row "inventoryQuantity") "0")
      image_url := jsOrS (itemGet row "Image URL") (jsOrS (itemGet row "image_url") "") }]
    markupApplied := false
    markupType := ""
    markupValue := "" }

/-- The `{headers, rows}` CSV payload; the headers play no role in
`processCsvData`'s logic (they are only logged). -/
structure CsvData where
  rows : List Item

/-- Selection filters `payload.importFilters`. -/
structure ImportFilters where
  selectedValues : List String

/-- Translation of `processCsvData(csvData, importFilters, keyMappings)`
(lines 1224-1342); `keyMappings` is unused by the source body. -/
def processCsvData (csvData : CsvData) (importFilters : ImportFilters)
    (keyMappings : List (String × String)) : List Product :=
  let filteredRows := csvFilteredRows csvData.rows importFilters.selectedValues
  filteredRows.mapIdx (fun index row => rowToProduct importFilters.selectedValues index row)

/-- API item filtering (lines 1405-1490): all items pass when no values
are selected, otherwise an item passes when any well-formed token
matches it. -/
def apiFilterItems (items : List Item) (importFilters : ImportFilters) : List Item :=
  if importFilters.selectedValues.length = 0 then items
  else
    items.filter (fun item =>
      importFilters.selectedValues.any (fun token =>
        let kv := parseToken token
        kv.1 ≠ "" && kv.2 ≠ "" && rowMatches item kv.1 kv.2))

/-- Key-mapping application (lines 1498-1508): copy `item[sourceKey]` to
`product[targetKey]` for each mapping whose source key exists. -/
def mapItemKeys (keyMappings : List (String × String)) (item : Item) : Item :=
  keyMappings.foldl
    (fun product kv =>
      match itemGet item kv.1 with
      | some v => itemSet product kv.2 v
      | none => product)
    []

/-- Tags of an API product before the 250 cap (lines 1518 and 1529-1555):
the single mapped tag if present, then the filter tags, then the
`['default', 'Sandeep']` default for an empty list or an appended
`'Sandeep'` when missing. -/
def sandeepTags (keyMappings : List (String × String)) (importFilters : ImportFilters)
    (item : Item) : List String :=
  let product := mapItemKeys keyMappings item
  let tags0 :=
    match itemGet product "tags" with
    | some t => if t = "" then [] else [t]
    | none => []
  let filterTags := filterTagsOf importFilters.selectedValues
  let tags1 :=
    if importFilters.selectedValues.length > 0 ∧ filterTags ≠ [] then tags0 ++ filterTags else tags0
  if tags1.isEmpty then ["default", "Sandeep"]
  else if ¬tags1.contains "Sandeep" then tags1 ++ ["Sandeep"]
  else tags1

/-- Item-to-product transformation of `fetchApiData` (lines 1493-1563).
A key the API item does not carry (`inventoryQuantity`) is modelled as
the empty string. -/
def transformApiItem (keyMappings : List (String × String)) (importFilters : ImportFilters)
    (item : Item) : Product :=
  let product := mapItemKeys keyMappings item
  { title := jsOrS (itemGet product "title") (jsOrS (itemGet item "name") (jsOrS (itemGet item "title") "Imported Product"))
    descriptionHtml := jsOrS (itemGet product "bodyHtml") (jsOrS (itemGet product "descriptionHtml") (jsOrS (itemGet item "description") ""))
    vendor := jsOrS (itemGet product "vendor") (jsOrS (itemGet item "vendor") "")
    productType := jsOrS (itemGet product "productType") (jsOrS (itemGet item "type") "")
    tags := limitTagsArray (sandeepTags keyMappings importFilters item) 250
    status := "DRAFT"
    variants := [{
      price := jsOrS (itemGet product "price") (jsOrS (itemGet item "price") "0.00")
      compareAtPrice := jsOrS (itemGet product "compareAtPrice") (jsOrS (itemGet item "compareAtPrice") "")
      sku := jsOrS (itemGet product "sku") (jsOrS (itemGet item "sku") "")
      barcode := jsOrS (itemGet product "barcode") (jsOrS (itemGet item "barcode") "")
      inventoryQuantity := ""
      image_url := jsOrS (itemGet product "image_url") (jsOrS (itemGet item "image_url") (jsOrS (itemGet item "image") (jsOrS (itemGet item "mediaSrc") ""))) }]
    markupApplied := false
    markupType := ""
    markupValue := "" }

/-- Pure core of `fetchApiData(apiCredentials, importFilters, keyMappings)`
(lines 1344-1572): given the item array extracted from the HTTP response
body, filter the items and transform each survivor. -/
def fetchApiData (items : List Item) (importFilters : ImportFilters)
    (keyMappings : List (String × String)) : List Product :=
  (apiFilterItems items importFilters).map (transformApiItem keyMappings importFilters)

/-! ## Import orchestrator: the `bulkCreateProducts` batch loop

Translation of the per-item state machine of the `action` handler (lines
526-936).  What the external Shopify calls return is abstracted into one
outcome per item: `success` covers both the update path (lines 835-897)
and a successful create (lines 644-826), `createFailed` the create
response without a product (lines 827-831), and `threw msg` any error
thrown while processing the item, caught at lines 898-917.  The durable
`ImportSession` writes and the `results` entries are recorded in program
order; database writes are assumed to succeed (their failure is swallowed
by the source's own try/catch and changes no counter). -/

/-- Abstract outcome of processing one product against the external API. -/
inductive ItemOutcome where
  | success
  | createFailed
  | threw (msg : String)
deriving DecidableEq, Repr

/-- One persisted update of the `ImportSession` row (the counter and
status fields that the loop writes). -/
structure SessionWrite where
  importedProducts : Nat
  failedProducts : Nat
  status : String
  completedAt : Bool
deriving DecidableEq, Repr

/-- One entry of the `results` array (the `product` field, an object or
title string, is elided). -/
structure ItemRes where
  success : Bool
  error : Option String
deriving DecidableEq, Repr

/-- Aggregate state produced by the rest of the loop from given counter
values: final counters, session writes and result entries in order. -/
structure LoopOut where
  imported : Nat
  failed : Nat
  writes : List SessionWrite
  results : List ItemRes
deriving DecidableEq, Repr

/-- The `for (let i = 0; ...)` loop (lines 533-918) from counter state
`(imp, fl)`: each iteration first persists the current counters with
status `processing` (lines 539-547), then on success increments
`importedCount` and persists (lines 773-789 / 843-859), on a failed
create response only increments `failedCount` (lines 827-831, no session
write in that branch), and on a thrown error increments `failedCount`
and persists (lines 898-917). -/
def runLoop (imp fl : Nat) : List ItemOutcome → LoopOut
  | [] => ⟨imp, fl, [], []⟩
  | o :: rest =>
    let pre : SessionWrite := ⟨imp, fl, "processing", false⟩
    match o with
    | .success =>
      let out := runLoop (imp + 1) fl rest
      ⟨out.imported, out.failed,
        pre :: ⟨imp + 1, fl, "processing", false⟩ :: out.writes,
        ⟨true, none⟩ :: out.results⟩
    | .createFailed =>
      let out := runLoop imp (fl + 1) rest
      ⟨out.imported, out.failed,
        pre :: out.writes,
        ⟨false, some "Product creation failed"⟩ :: out.results⟩
    | .threw msg =>
      let out := runLoop imp (fl + 1) rest
      ⟨out.imported, out.failed,
        pre :: ⟨imp, fl + 1, "processing", false⟩ :: out.writes,
        ⟨false, some msg⟩ :: out.results⟩

/-- The full sequence of persisted `ImportSession` states of one run: the
creation with zeroed counters and status `running` (lines 409-421), the
in-loop writes, and the final write with status `completed` and a stamped
`completedAt` (lines 921-929). -/
def bulkTrace (outcomes : List ItemOutcome) : List SessionWrite :=
  let out := runLoop 0 0 outcomes
  ⟨0, 0, "running", false⟩ :: (out.writes ++ [⟨out.imported, out.failed, "completed", true⟩])

/-- Outcomes that increment the failure counter. -/
def isFailureOutcome : ItemOutcome → Bool
  | .success => false
  | .createFailed => true
  | .threw _ => true

/-! ## Progress query

Translation of the `getProgress` loader branch (lines 290-337). -/

/-- The `ImportSession` fields the loader reads. -/
structure SessionView where
  status : String
  importedProducts : Nat
  failedProducts : Nat
  totalProducts : Nat
deriving DecidableEq, Repr

/-- The latest `ImportedProduct` row ordered by `createdAt desc`; only
its title is read. -/
structure RecordView where
  title : String
deriving DecidableEq, Repr

/-- The progress `responseData` (line 319-327), minus the echoed
session id. -/
structure ProgressResponse where
  imported : Nat
  failed : Nat
  totalProducts : Nat
  currentProduct : String
  status : String
deriving DecidableEq, Repr

/-- Lines 315-317: `currentSession?.status === 'processing' ?
(latestProduct?.title || 'Processing...') : 'Import completed'`. -/
def currentProductName (currentSession : Option SessionView) (latestProduct : Option RecordView) : String :=
  if currentSession.map SessionView.status = some "processing" then
    jsOrS (latestProduct.map RecordView.title) "Processing..."
  else "Import completed"

/-- The progress response built at lines 319-327 (numeric `|| 0`
fallbacks coincide with `getD 0` because `0` is falsy). -/
def getProgressResponse (currentSession : Option SessionView) (latestProduct : Option RecordView) :
    ProgressResponse :=
  { imported := (currentSession.map SessionView.importedProducts).getD 0
    failed := (currentSession.map SessionView.failedProducts).getD 0
    totalProducts := (currentSession.map SessionView.totalProducts).getD 0
    currentProduct := currentProductName currentSession latestProduct
    status := jsOrS (currentSession.map SessionView.status) "pending" }

/-- Session writes performed from counter state `(imp, fl)` to the end of
the run: the in-loop writes followed by the final `completed` write. -/
def loopTrace (imp fl : Nat) (outcomes : List ItemOutcome) : List SessionWrite :=
  let out := runLoop imp fl outcomes
  out.writes ++ [⟨out.imported, out.failed, "completed", true⟩]

/-- Pointwise order on the persisted counters of two session writes. -/
def counterLe (a b : SessionWrite) : Prop :=
  a.importedProducts ≤ b.importedProducts ∧ a.failedProducts ≤ b.failedProducts

/-- Indices (counted from `start`) of the rows matching one parsed
selector token, in ascending order; the reference point for the
ordering analysis of the CSV selection. -/
def matchIdxsFrom (key value : String) : List Item → Nat → List Nat
  | [], _ => []
  | row :: rest, start =>
    (if rowMatches row key value then [start] else []) ++ matchIdxsFrom key value rest (start + 1)

/-! ## Fixtures shared by the concrete runs below -/

/-- Variant fixture with the given price and SKU. -/
def mkVariant (price sku : String) : Variant :=
  ⟨price, "", sku, "", "0", ""⟩

/-- Product fixture with the given title, tags and variants. -/
def mkProduct (title : String) (tags : List String) (variants : List Variant) : Product :=
  ⟨title, "", "V", "T", tags, "DRAFT", variants, false, "", ""⟩

/-! ## C3: the `between` operator -/

/-- C3: for every non-array resolved value and condition value of the
form `"<min>-<max>"`, the `between` operator is true exactly when
`parseFloat(resolvedValue) >= min` and (`max == 0` or
`parseFloat(resolvedValue) <= max`); concretely, against value
`"50-100"` a price of `"75"` passes and `"10"` fails, and against
`"50-0"` a price of `"9999"` passes (`max == 0` removes the upper
bound). -/
theorem C3_between_operator :
    (∀ (pvs cvs s1 s2 : String) (mn mx v : ℚ),
      strSplitOn cvs "-" = [s1, s2] →
      jsNumber s1 = some mn →
      jsNumber s2 = some mx →
      parseFloatQ pvs = some v →
      (checkStringCondition pvs cvs "between" = true ↔ (mn ≤ v ∧ (mx = 0 ∨ v ≤ mx))))
    ∧ checkCondition (mkProduct "A" [] [mkVariant "75" "S"]) ⟨"price", "", "between", "50-100", "", ""⟩ = true
    ∧ checkCondition (mkProduct "A" [] [mkVariant "10" "S"]) ⟨"price", "", "between", "50-100", "", ""⟩ = false
    ∧ checkCondition (mkProduct "A" [] [mkVariant "9999" "S"]) ⟨"price", "", "between", "50-0", "", ""⟩ = true := by
  refine ⟨?_, by decide, by decide, by decide⟩
  intro pvs cvs s1 s2 mn mx v hsplit hmn hmx hv
  simp [checkStringCondition, betweenCheck, hsplit, hmn, hmx, hv, optGe, optLe]

/-- Witness for C3 at the concrete inputs of the claim. -/
theorem C3_between_operator_witness :
    checkStringCondition "75" "50-100" "between" = true ↔ ((50 : ℚ) ≤ 75 ∧ ((100 : ℚ) = 0 ∨ (75 : ℚ) ≤ 100)) :=
  C3_between_operator.1 "75" "50-100" "50" "100" 50 100 75 (by decide) (by decide) (by decide) (by decide)

/-! ## C2: price update arithmetic -/

/-- Evaluation fact used to turn a parsed price hypothesis into the
current-price fallback expression. -/
theorem parseFloatQ_empty : parseFloatQ "" = none := rfl

/-- Current price of a product whose first variant's price parses. -/
theorem currentPriceOf_parsed (p : Product) (v0 : Variant) (vs : List Variant) (q : ℚ)
    (hvar : p.variants = v0 :: vs) (hq : parseFloatQ v0.price = some q) :
    currentPriceOf p = some q := by
  have hne : v0.price ≠ "" := by
    intro h
    rw [h, parseFloatQ_empty] at hq
    exact Option.noConfusion hq
  simp [currentPriceOf, hvar, hne, hq]

/-- C2: for a product whose first variant price parses to `q` and a
condition that matches with a valid markup value `v > 0`, a
`percent`/`percentage` markup computes `q * (1 + v/100)` and a `fixed`
markup computes `q + v`; the result is rounded to two decimals by
`toFixed(2)` and written back (together with the markup metadata) only
when it differs from the current price; concretely a product with first
variant price `"19.99"` and a matching percent markup of `10` ends with
price `"21.99"`. -/
theorem C2_price_update :
    (∀ (p : Product) (c : Condition) (v0 : Variant) (vs : List Variant) (q v : ℚ),
      p.variants = v0 :: vs →
      parseFloatQ v0.price = some q →
      checkCondition p c = true →
      markupIsPercent c = true →
      condMarkupValue c = some v →
      0 < v →
      applyLoop p [c] =
        some (if q * (1 + v / 100) ≠ q then
          { p with
            variants := { v0 with price := toFixed2 (q * (1 + v / 100)) } :: vs
            markupApplied := true
            markupType := "percentage"
            markupValue := decimalString v }
        else p))
    ∧ (∀ (p : Product) (c : Condition) (v0 : Variant) (vs : List Variant) (q v : ℚ),
      p.variants = v0 :: vs →
      parseFloatQ v0.price = some q →
      checkCondition p c = true →
      markupIsFixed c = true →
      condMarkupValue c = some v →
      0 < v →
      applyLoop p [c] =
        some (if q + v ≠ q then
          { p with
            variants := { v0 with price := toFixed2 (q + v) } :: vs
            markupApplied := true
            markupType := "fixed"
            markupValue := decimalString v }
        else p))
    ∧ applyMarkupRules (mkProduct "A" [] [mkVariant "19.99" "S"])
        ⟨"any", [⟨"title", "", "eq", "A", "percent", "10"⟩]⟩ =
      some { mkProduct "A" [] [mkVariant "19.99" "S"] with
        variants := [{ mkVariant "19.99" "S" with price := "21.99" }]
        markupApplied := true
        markupType := "percentage"
        markupValue := "10" } := by
  refine ⟨?_, ?_, by decide⟩
  · intro p c v0 vs q v hvar hq hcheck hper hmv hpos
    have hcp : currentPriceOf p = some q := currentPriceOf_parsed p v0 vs q hvar hq
    by_cases hne : q * (1 + v / 100) = q
    · simp [applyLoop, hcheck, hmv, hper, hpos, hcp, jsNeq, hne]
    · simp [applyLoop, hcheck, hmv, hper, hpos, hcp, jsNeq, hne, writeMarkup, setFirstPrice,
        toFixed2Opt, hvar]
  · intro p c v0 vs q v hvar hq hcheck hfix hmv hpos
    have hcp : currentPriceOf p = some q := currentPriceOf_parsed p v0 vs q hvar hq
    have hmt : c.markupType = "fixed" := by
      simpa [markupIsFixed] using hfix
    have hper : markupIsPercent c = false := by
      simp [markupIsPercent, hmt]
    by_cases hne : q + v = q
    · simp [applyLoop, hcheck, hmv, hper, hfix, hpos, hcp, jsNeq, hne]
    · simp [applyLoop, hcheck, hmv, hper, hfix, hpos, hcp, jsNeq, hne, writeMarkup, setFirstPrice,
        toFixed2Opt, hvar]

/-- Witness for C2 at the concrete product of the claim. -/
theorem C2_price_update_witness :
    applyLoop (mkProduct "A" [] [mkVariant "19.99" "S"]) [⟨"title", "", "eq", "A", "percent", "10"⟩] =
      some (if (1999 / 100 : ℚ) * (1 + 10 / 100) ≠ 1999 / 100 then
        { mkProduct "A" [] [mkVariant "19.99" "S"] with
          variants := [{ mkVariant "19.99" "S" with price := toFixed2 ((1999 / 100 : ℚ) * (1 + 10 / 100)) }]
          markupApplied := true
          markupType := "percentage"
          markupValue := decimalString 10 }
      else mkProduct "A" [] [mkVariant "19.99" "S"]) :=
  C2_price_update.1 (mkProduct "A" [] [mkVariant "19.99" "S"]) ⟨"title", "", "eq", "A", "percent", "10"⟩
    (mkVariant "19.99" "S") [] (1999 / 100) 10 rfl (by decide) (by decide) (by decide) (by decide)
    (by decide)

/-! ## C1: first-match-wins markup application -/

/-- The condition scan applies exactly the first condition that matches,
has a valid markup, and computes a price different from the current one;
later conditions are untouched and a run with no such condition leaves
the product unchanged. -/
theorem applyLoop_eq_find (p : Product) :
    ∀ cs : List Condition,
      applyLoop p cs = ((cs.find? (appliesTo p)).map (applyOne p)).getD (some p) := by
  intro cs
  induction cs with
  | nil => simp [applyLoop]
  | cons c rest ih =>
    by_cases hc : checkCondition p c = true
    · cases hm : condMarkupValue c with
      | none =>
        have happ : appliesTo p c = false := by simp [appliesTo, hc, hm]
        simp [applyLoop, hc, hm, List.find?_cons, happ, ih]
      | some v =>
        by_cases hP : (markupIsPercent c = true ∧ 0 < v)
        · by_cases hN :
            jsNeq ((currentPriceOf p).map fun cp => cp * (1 + v / 100)) (currentPriceOf p) = true
          · have happ : appliesTo p c = true := by simp [appliesTo, hc, hm, hP, hN]
            simp [applyLoop, hc, hm, hP, hN, List.find?_cons, happ, applyOne, hP.1]
          · have happ : appliesTo p c = false := by simp [appliesTo, hc, hm, hP, hN]
            simp [applyLoop, hc, hm, hP, hN, List.find?_cons, happ, ih]
        · by_cases hF : (markupIsFixed c = true ∧ 0 < v)
          · have hper : markupIsPercent c = false := by
              have hmt : c.markupType = "fixed" := by simpa [markupIsFixed] using hF.1
              simp [markupIsPercent, hmt]
            by_cases hN :
              jsNeq ((currentPriceOf p).map fun cp => cp + v) (currentPriceOf p) = true
            · have happ : appliesTo p c = true := by simp [appliesTo, hc, hm, hper, hF, hN]
              simp [applyLoop, hc, hm, hper, hF, hN, List.find?_cons, happ, applyOne]
            · have happ : appliesTo p c = false := by simp [appliesTo, hc, hm, hper, hF, hN]
              simp [applyLoop, hc, hm, hper, hF, hN, List.find?_cons, happ, ih]
          · have happ : appliesTo p c = false := by simp [appliesTo, hc, hm, hP, hF]
            simp [applyLoop, hc, hm, hP, hF, List.find?_cons, happ, ih]
    · have happ : appliesTo p c = false := by simp [appliesTo, hc]
      simp [applyLoop, hc, List.find?_cons, happ, ih]

/-- C1 counterexample: on a product whose first variant price is
`"0.00"`, with a matching `percent 10` condition declared before a
matching `fixed 5` condition, the first condition evaluates true and its
markup is valid (`10 > 0`), yet the markup actually applied is the later
condition's `fixed 5` (the percent computation leaves a zero price
unchanged, so the loop falls through to the next condition). -/
theorem C1_counterexample :
    checkCondition (mkProduct "A" [] [mkVariant "0.00" "S"]) ⟨"title", "", "eq", "A", "percent", "10"⟩ = true
    ∧ condMarkupValue ⟨"title", "", "eq", "A", "percent", "10"⟩ = some 10
    ∧ markupIsPercent ⟨"title", "", "eq", "A", "percent", "10"⟩ = true
    ∧ (applyMarkupRules (mkProduct "A" [] [mkVariant "0.00" "S"])
        ⟨"any", [⟨"title", "", "eq", "A", "percent", "10"⟩, ⟨"title", "", "eq", "A", "fixed", "5"⟩]⟩).map
        (fun p => ((p.variants.head?).map Variant.price, p.markupType, p.markupValue)) =
      some (some "5.00", "fixed", "5") := by
  decide

/-- C1 (amended): when the grouped conditions match, `applyMarkupRules`
applies the markup of the first condition in declaration order that
evaluates true, has a valid markup (`markupValue > 0`), and whose
computed new price differs from the current price; it stops after that
first successful application, and when no condition successfully applies
the product is returned unchanged. -/
theorem C1_first_match_wins :
    ∀ (p : Product) (cfg : MarkupConfig),
      cfg.conditions ≠ [] →
      conditionsMatchB p cfg = true →
      applyMarkupRules p cfg =
        ((cfg.conditions.find? (appliesTo p)).map (applyOne p)).getD (some p) := by
  intro p cfg hne hmatch
  have hlist : cfg.conditions.isEmpty = false := by
    cases h : cfg.conditions with
    | nil => exact absurd h hne
    | cons a l => simp [h]
  simp [applyMarkupRules, hlist, hmatch, applyLoop_eq_find]

/-- Witness for C1 at the counterexample's product and configuration. -/
theorem C1_first_match_wins_witness :
    applyMarkupRules (mkProduct "A" [] [mkVariant "0.00" "S"])
        ⟨"any", [⟨"title", "", "eq", "A", "percent", "10"⟩, ⟨"title", "", "eq", "A", "fixed", "5"⟩]⟩ =
      ((([⟨"title", "", "eq", "A", "percent", "10"⟩, ⟨"title", "", "eq", "A", "fixed", "5"⟩] :
          List Condition).find?
            (appliesTo (mkProduct "A" [] [mkVariant "0.00" "S"]))).map
          (applyOne (mkProduct "A" [] [mkVariant "0.00" "S"]))).getD
        (some (mkProduct "A" [] [mkVariant "0.00" "S"])) :=
  C1_first_match_wins (mkProduct "A" [] [mkVariant "0.00" "S"])
    ⟨"any", [⟨"title", "", "eq", "A", "percent", "10"⟩, ⟨"title", "", "eq", "A", "fixed", "5"⟩]⟩
    (by decide) (by decide)

/-! ## C4, C5, C9: batch-loop invariants -/

/-- Unfolding of the write trace for an empty outcome list. -/
theorem loopTrace_nil (imp fl : Nat) :
    loopTrace imp fl [] = [⟨imp, fl, "completed", true⟩] := rfl

/-- Unfolding of the write trace for a successful item. -/
theorem loopTrace_success (imp fl : Nat) (rest : List ItemOutcome) :
    loopTrace imp fl (.success :: rest) =
      ⟨imp, fl, "processing", false⟩ :: ⟨imp + 1, fl, "processing", false⟩ ::
        loopTrace (imp + 1) fl rest := rfl

/-- Unfolding of the write trace for a failed create response. -/
theorem loopTrace_createFailed (imp fl : Nat) (rest : List ItemOutcome) :
    loopTrace imp fl (.createFailed :: rest) =
      ⟨imp, fl, "processing", false⟩ :: loopTrace imp (fl + 1) rest := rfl

/-- Unfolding of the write trace for a thrown per-item error. -/
theorem loopTrace_threw (imp fl : Nat) (msg : String) (rest : List ItemOutcome) :
    loopTrace imp fl (.threw msg :: rest) =
      ⟨imp, fl, "processing", false⟩ :: ⟨imp, fl + 1, "processing", false⟩ ::
        loopTrace imp (fl + 1) rest := rfl

/-- The first write performed from counter state `(imp, fl)` carries
exactly those counters. -/
theorem loopTrace_head_counters (os : List ItemOutcome) (imp fl : Nat) :
    ((loopTrace imp fl os).head?).map (fun w => (w.importedProducts, w.failedProducts)) =
      some (imp, fl) := by
  cases os with
  | nil => rfl
  | cons o rest => cases o <;> rfl

/-- The persisted counters never decrease along the write trace. -/
theorem loopTrace_chain (os : List ItemOutcome) :
    ∀ imp fl, List.Chain' counterLe (loopTrace imp fl os) := by
  induction os with
  | nil =>
    intro imp fl
    rw [loopTrace_nil]
    exact List.chain'_singleton _
  | cons o rest ih =>
    intro imp fl
    have hhead : ∀ imp' fl' imp0 fl0 : Nat, imp0 ≤ imp' → fl0 ≤ fl' →
        ∀ w ∈ (loopTrace imp' fl' rest).head?,
          counterLe ⟨imp0, fl0, "processing", false⟩ w := by
      intro imp' fl' imp0 fl0 h1 h2 w hw
      have hh := loopTrace_head_counters rest imp' fl'
      rw [Option.mem_def] at hw
      rw [hw] at hh
      have heq : (w.importedProducts, w.failedProducts) = (imp', fl') := by
        simpa using hh
      obtain ⟨e1, e2⟩ := Prod.mk.inj heq
      exact ⟨by rw [e1]; exact h1, by rw [e2]; exact h2⟩
    cases o with
    | success =>
      rw [loopTrace_success, List.chain'_cons, List.chain'_cons']
      exact ⟨⟨Nat.le_succ imp, le_refl fl⟩,
        hhead (imp + 1) fl (imp + 1) fl (le_refl _) (le_refl _), ih (imp + 1) fl⟩
    | createFailed =>
      rw [loopTrace_createFailed, List.chain'_cons']
      exact ⟨hhead imp (fl + 1) imp fl (le_refl _) (Nat.le_succ fl), ih imp (fl + 1)⟩
    | threw msg =>
      rw [loopTrace_threw, List.chain'_cons, List.chain'_cons']
      exact ⟨⟨le_refl imp, Nat.le_succ fl⟩,
        hhead imp (fl + 1) imp (fl + 1) (le_refl _) (le_refl _), ih imp (fl + 1)⟩

/-- Exactly one write of the trace carries status `completed`. -/
theorem loopTrace_completed_once (os : List ItemOutcome) :
    ∀ imp fl, (loopTrace imp fl os).countP (fun w => w.status == "completed") = 1 := by
  induction os with
  | nil => intro imp fl; rfl
  | cons o rest ih =>
    intro imp fl
    cases o with
    | success => rw [loopTrace_success]; simp [List.countP_cons, ih]
    | createFailed => rw [loopTrace_createFailed]; simp [List.countP_cons, ih]
    | threw msg => rw [loopTrace_threw]; simp [List.countP_cons, ih]

/-- C4: along the full sequence of persisted session states of one run,
the `importedProducts` and `failedProducts` counters are monotonically
non-decreasing from write to write, and the session is finalized exactly
once — exactly one write carries status `completed`, it is the last one,
and it stamps `completedAt`. -/
theorem C4_session_counters_monotone (os : List ItemOutcome) :
    List.Chain' counterLe (bulkTrace os)
    ∧ (bulkTrace os).countP (fun w => w.status == "completed") = 1
    ∧ ((bulkTrace os).getLast?).map (fun w => (w.status, w.completedAt)) =
      some ("completed", true) := by
  refine ⟨?_, ?_, ?_⟩
  · rw [show bulkTrace os = ⟨0, 0, "running", false⟩ :: loopTrace 0 0 os from rfl,
      List.chain'_cons']
    exact ⟨fun w _ => ⟨Nat.zero_le _, Nat.zero_le _⟩, loopTrace_chain os 0 0⟩
  · rw [show bulkTrace os = ⟨0, 0, "running", false⟩ :: loopTrace 0 0 os from rfl]
    simp [List.countP_cons, loopTrace_completed_once os 0 0]
  · rw [show bulkTrace os =
      (⟨0, 0, "running", false⟩ :: (runLoop 0 0 os).writes) ++
        [⟨(runLoop 0 0 os).imported, (runLoop 0 0 os).failed, "completed", true⟩] from rfl,
      List.getLast?_concat]
    rfl

/-- Every processed item contributes exactly one entry to `results`. -/
theorem runLoop_results_length (os : List ItemOutcome) :
    ∀ imp fl, (runLoop imp fl os).results.length = os.length := by
  induction os with
  | nil => intro imp fl; rfl
  | cons o rest ih => intro imp fl; cases o <;> simp [runLoop, ih]

/-- The final failure counter counts exactly the failing outcomes. -/
theorem runLoop_failed (os : List ItemOutcome) :
    ∀ imp fl, (runLoop imp fl os).failed = fl + os.countP (fun o => isFailureOutcome o) := by
  induction os with
  | nil => intro imp fl; simp [runLoop]
  | cons o rest ih =>
    intro imp fl
    cases o <;> simp [runLoop, ih, List.countP_cons, isFailureOutcome] <;> omega

/-- The final success counter counts exactly the successful outcomes. -/
theorem runLoop_imported (os : List ItemOutcome) :
    ∀ imp fl, (runLoop imp fl os).imported = imp + os.countP (fun o => !isFailureOutcome o) := by
  induction os with
  | nil => intro imp fl; simp [runLoop]
  | cons o rest ih =>
    intro imp fl
    cases o <;> simp [runLoop, ih, List.countP_cons, isFailureOutcome] <;> omega

/-- A thrown error at position `i` records an error entry at the same
position of `results`. -/
theorem runLoop_threw_result (os : List ItemOutcome) :
    ∀ imp fl (i : Nat) (msg : String), os.get? i = some (.threw msg) →
      (runLoop imp fl os).results.get? i = some ⟨false, some msg⟩ := by
  induction os with
  | nil => intro imp fl i msg h; simp at h
  | cons o rest ih =>
    intro imp fl i msg h
    cases i with
    | zero =>
      simp only [List.get?_cons_zero, Option.some.injEq] at h
      subst h
      rfl
    | succ i =>
      simp only [List.get?_cons_succ] at h
      cases o <;> simpa [runLoop] using ih _ _ i msg h

/-- C5: for every outcome list and every item in it, a thrown error for
that item appends a failure entry carrying the error message at the
item's position in the results list, increments the failure counter
(which ends equal to the number of failing items), and never aborts the
batch — every item contributes its result entry. -/
theorem C5_thrown_error_isolated (os : List ItemOutcome) (imp fl : Nat) :
    (runLoop imp fl os).results.length = os.length
    ∧ (runLoop imp fl os).failed = fl + os.countP (fun o => isFailureOutcome o)
    ∧ (∀ (i : Nat) (msg : String), os.get? i = some (.threw msg) →
        (runLoop imp fl os).results.get? i = some ⟨false, some msg⟩) :=
  ⟨runLoop_results_length os imp fl, runLoop_failed os imp fl,
    fun i msg h => runLoop_threw_result os imp fl i msg h⟩

/-- Witness for C5 on a one-item batch whose item throws. -/
theorem C5_thrown_error_isolated_witness :
    (runLoop 0 0 [ItemOutcome.threw "boom"]).results.get? 0 =
      some ⟨false, some "boom"⟩ :=
  (C5_thrown_error_isolated [ItemOutcome.threw "boom"] 0 0).2.2 0 "boom" rfl

/-- Complementary outcome counts partition the batch. -/
theorem countP_outcome_partition (os : List ItemOutcome) :
    os.countP (fun o => !isFailureOutcome o) + os.countP (fun o => isFailureOutcome o) =
      os.length := by
  induction os with
  | nil => rfl
  | cons o rest ih =>
    cases o <;> (simp [List.countP_cons, isFailureOutcome] at ih ⊢; omega)

/-- C9: each iteration increments exactly one of the two counters, so the
final counters partition the batch: `imported` counts the successes,
`failed` counts the failed creates and thrown errors, their sum is the
number of processed products, and the finalized session write carries
that sum. -/
theorem C9_counters_partition (os : List ItemOutcome) :
    (runLoop 0 0 os).imported = os.countP (fun o => !isFailureOutcome o)
    ∧ (runLoop 0 0 os).failed = os.countP (fun o => isFailureOutcome o)
    ∧ (runLoop 0 0 os).imported + (runLoop 0 0 os).failed = os.length
    ∧ ((bulkTrace os).getLast?).map (fun w => w.importedProducts + w.failedProducts) =
      some os.length := by
  have h1 := runLoop_imported os 0 0
  have h2 := runLoop_failed os 0 0
  have hsum : (runLoop 0 0 os).imported + (runLoop 0 0 os).failed = os.length := by
    rw [h1, h2, Nat.zero_add, Nat.zero_add]
    exact countP_outcome_partition os
  refine ⟨by simpa using h1, by simpa using h2, hsum, ?_⟩
  rw [show bulkTrace os =
    (⟨0, 0, "running", false⟩ :: (runLoop 0 0 os).writes) ++
      [⟨(runLoop 0 0 os).imported, (runLoop 0 0 os).failed, "completed", true⟩] from rfl,
    List.getLast?_concat]
  simpa using hsum

/-! ## C6: the 250-tag cap -/

/-- The tag cap always keeps the first `maxLength` tags in order. -/
theorem limitTagsArray_eq_take (tags : List String) (maxLength : Nat) :
    limitTagsArray tags maxLength = tags.take maxLength := by
  unfold limitTagsArray
  by_cases h : tags.length ≤ maxLength
  · rw [if_pos h, List.take_of_length_le h]
  · rw [if_neg h]

set_option maxRecDepth 40000 in
/-- C6 counterexample: a CSV-source product assigned 300 filter-derived
tags ends with all 300 tags — `processCsvData` never calls
`limitTagsArray`, so the cap claimed for every produced canonical product
does not happen on the CSV path. -/
theorem C6_counterexample :
    (processCsvData ⟨[[("k", "a")]]⟩ ⟨List.replicate 300 "k::a"⟩ []).map
      (fun p => p.tags.length) = [300]
    ∧ (300 : Nat) ≠ 250 := by
  constructor
  · decide
  · decide

set_option maxRecDepth 40000 in
/-- C6 (amended): only API-source products have their tags capped:
`transformApiItem` caps the tag list to its first 250 entries in original
order (an API product assigned 300 filter tags ends with exactly 250),
while a CSV-source product keeps all of its tags (one assigned 300
filter tags ends with 300). -/
theorem C6_tag_cap :
    (∀ (km : List (String × String)) (fl : ImportFilters) (item : Item),
      (transformApiItem km fl item).tags = (sandeepTags km fl item).take 250)
    ∧ (fetchApiData [[("k", "a")]] ⟨List.replicate 300 "k::a"⟩ []).map Product.tags =
      [List.replicate 250 "a"]
    ∧ (processCsvData ⟨[[("k", "a")]]⟩ ⟨List.replicate 300 "k::a"⟩ []).map
      (fun p => p.tags.length) = [300] := by
  refine ⟨?_, by decide, by decide⟩
  intro km fl item
  simp [transformApiItem, limitTagsArray_eq_take]

/-! ## C7: CSV selection order -/

/-- Scanning the rows for one token from a set whose members all precede
the scan start appends exactly the ascending matching indices. -/
theorem forEachRowsAux_eq (key value : String) :
    ∀ (rows : List Item) (start : Nat) (s : List Nat),
      (∀ x ∈ s, x < start) →
      forEachRowsAux key value rows start s = s ++ matchIdxsFrom key value rows start := by
  intro rows
  induction rows with
  | nil => intro start s _; simp [forEachRowsAux, matchIdxsFrom]
  | cons row rest ih =>
    intro start s hs
    by_cases hm : rowMatches row key value = true
    · have hnot : start ∉ s := fun hmem => absurd (hs start hmem) (lt_irrefl start)
      have hstep : insertIdx s start = s ++ [start] := by
        simp [insertIdx, hnot]
      have hbound : ∀ x ∈ s ++ [start], x < start + 1 := by
        intro x hx
        rcases List.mem_append.mp hx with h | h
        · exact Nat.lt_succ_of_lt (hs x h)
        · simp at h
          omega
      calc forEachRowsAux key value (row :: rest) start s
          = forEachRowsAux key value rest (start + 1) (s ++ [start]) := by
            simp [forEachRowsAux, hm, hstep]
        _ = (s ++ [start]) ++ matchIdxsFrom key value rest (start + 1) := ih (start + 1) _ hbound
        _ = s ++ matchIdxsFrom key value (row :: rest) start := by
            simp [matchIdxsFrom, hm]
    · have hbound : ∀ x ∈ s, x < start + 1 := fun x hx => Nat.lt_succ_of_lt (hs x hx)
      calc forEachRowsAux key value (row :: rest) start s
          = forEachRowsAux key value rest (start + 1) s := by
            simp [forEachRowsAux, hm]
        _ = s ++ matchIdxsFrom key value rest (start + 1) := ih (start + 1) s hbound
        _ = s ++ matchIdxsFrom key value (row :: rest) start := by
            simp [matchIdxsFrom, hm]

/-- Shifting the scan start shifts every recorded index. -/
theorem matchIdxsFrom_shift (key value : String) :
    ∀ (rows : List Item) (start : Nat),
      matchIdxsFrom key value rows (start + 1) =
        (matchIdxsFrom key value rows start).map (fun i => i + 1) := by
  intro rows
  induction rows with
  | nil => intro start; simp [matchIdxsFrom]
  | cons row rest ih =>
    intro start
    by_cases hm : rowMatches row key value = true
    · simp [matchIdxsFrom, hm, ih (start + 1)]
    · simp [matchIdxsFrom, hm, ih (start + 1)]

/-- Reading the rows back at the ascending matching indices is exactly
the order-preserving filter of the rows. -/
theorem matchIdxsFrom_filterMap (key value : String) :
    ∀ rows : List Item,
      (matchIdxsFrom key value rows 0).filterMap (fun i => rows.get? i) =
        rows.filter (fun row => rowMatches row key value) := by
  intro rows
  induction rows with
  | nil => simp [matchIdxsFrom]
  | cons row rest ih =>
    have hshift : matchIdxsFrom key value rest 1 = (matchIdxsFrom key value rest 0).map (fun i => i + 1) := by
      simpa using matchIdxsFrom_shift key value rest 0
    have hcomp : (matchIdxsFrom key value rest 1).filterMap (fun i => (row :: rest).get? i) =
        (matchIdxsFrom key value rest 0).filterMap (fun i => rest.get? i) := by
      rw [hshift, List.filterMap_map]
      rfl
    by_cases hm : rowMatches row key value = true
    · have h0 : matchIdxsFrom key value (row :: rest) 0 = 0 :: matchIdxsFrom key value rest 1 := by
        simp [matchIdxsFrom, hm]
      rw [h0]
      simp only [List.filterMap_cons, List.get?_cons_zero]
      rw [hcomp, ih]
      simp [List.filter_cons, hm]
    · have h0 : matchIdxsFrom key value (row :: rest) 0 = matchIdxsFrom key value rest 1 := by
        simp [matchIdxsFrom, hm]
      rw [h0, hcomp, ih]
      simp [List.filter_cons, hm]

/-- C7 counterexample: two rows and two selector tokens where the first
token matches only the second row: the output is `[row 1, row 0]` — the
JavaScript `Set` iterates in insertion order, grouped by token, not in
ascending row order. -/
theorem C7_counterexample :
    csvFilteredRows [[("cat", "x")], [("cat", "y")]] ["cat::y", "cat::x"] =
      [[("cat", "y")], [("cat", "x")]]
    ∧ ([("cat", "y")] : Item) ≠ [("cat", "x")] := by
  constructor
  · decide
  · decide

/-- C7 (amended): with a single valid selector token the selected rows
appear in their original record order — the output is exactly the
order-preserving filter of the rows by the token's matcher.  With several
tokens the rows are grouped by the first token that matched them, in
insertion order, which can deviate from the original order. -/
theorem C7_single_token_order :
    ∀ (rows : List Item) (token key value : String),
      parseToken token = (key, value) →
      key ≠ "" →
      value ≠ "" →
      csvFilteredRows rows [token] = rows.filter (fun row => rowMatches row key value) := by
  intro rows token key value htok hk hv
  have hcollect : collectIndices rows [token] = matchIdxsFrom key value rows 0 := by
    simp only [collectIndices, List.foldl_cons, List.foldl_nil, htok]
    rw [if_neg (by simp [hk, hv])]
    exact forEachRowsAux_eq key value rows 0 [] (by simp)
  simp only [csvFilteredRows, List.length_cons, List.length_nil, Nat.zero_add,
    Nat.lt_irrefl, gt_iff_lt, Nat.zero_lt_one, if_pos, hcollect]
  exact matchIdxsFrom_filterMap key value rows

/-- Witness for C7 on a concrete two-row single-token selection. -/
theorem C7_single_token_order_witness :
    csvFilteredRows [[("cat", "x")], [("cat", "y")]] ["cat::x"] =
      ([[("cat", "x")], [("cat", "y")]] : List Item).filter
        (fun row => rowMatches row "cat" "x") :=
  C7_single_token_order [[("cat", "x")], [("cat", "y")]] "cat::x" "cat" "x"
    (by decide) (by decide) (by decide)

/-! ## C8: the progress query's current product -/

/-- C8 counterexample: while the session is `processing`, a most recently
created record whose title is the empty string yields the fallback
`"Processing..."`, not the record's title. -/
theorem C8_counterexample :
    (getProgressResponse (some ⟨"processing", 1, 0, 3⟩) (some ⟨""⟩)).currentProduct ≠
      (RecordView.mk "").title
    ∧ (getProgressResponse (some ⟨"processing", 1, 0, 3⟩) (some ⟨""⟩)).currentProduct =
      "Processing..." := by
  constructor
  · decide
  · decide

/-- C8 (amended): while the session's status is `processing`, the
progress query returns the most recently created record's title when such
a record exists and its title is non-empty, and the fallback
`"Processing..."` otherwise (no record yet, or an empty title); in every
other status it returns the fixed `"Import completed"` string regardless
of the records. -/
theorem C8_current_product :
    ∀ (cs : Option SessionView) (lp : Option RecordView),
      (cs.map SessionView.status = some "processing" →
        (getProgressResponse cs lp).currentProduct =
          (match lp with
           | some r => if r.title = "" then "Processing..." else r.title
           | none => "Processing..."))
      ∧ (cs.map SessionView.status ≠ some "processing" →
        (getProgressResponse cs lp).currentProduct = "Import completed") := by
  intro cs lp
  constructor
  · intro h
    cases lp with
    | none => simp [getProgressResponse, currentProductName, h, jsOrS]
    | some r => simp [getProgressResponse, currentProductName, h, jsOrS]
  · intro h
    simp [getProgressResponse, currentProductName, h]

/-- Witness for C8 on a completed session with no records. -/
theorem C8_current_product_witness :
    (getProgressResponse (some ⟨"completed", 2, 1, 3⟩) none).currentProduct =
      "Import completed" :=
  (C8_current_product (some ⟨"completed", 2, 1, 3⟩) none).2 (by decide)

/-! ## C10: the `Sandeep` tag of API products -/

/-- Membership of `"Sandeep"` in the default-or-append step. -/
theorem sandeep_mem_core (l : List String) :
    "Sandeep" ∈ (if l.isEmpty then ["default", "Sandeep"]
      else if ¬l.contains "Sandeep" then l ++ ["Sandeep"] else l) := by
  by_cases h : l.isEmpty
  · simp [h]
  · by_cases hc : l.contains "Sandeep" = true
    · rw [if_neg h, if_neg (by simpa using hc)]
      exact List.elem_iff.mp hc
    · rw [if_neg h, if_pos (by simpa using hc)]
      simp

/-- Every pre-cap API tag list contains `"Sandeep"`. -/
theorem sandeep_mem (km : List (String × String)) (fl : ImportFilters) (item : Item) :
    "Sandeep" ∈ sandeepTags km fl item := by
  unfold sandeepTags
  exact sandeep_mem_core _

/-- The tag cap keeps a non-empty list non-empty. -/
theorem limitTagsArray_ne_nil (l : List String) (h : l ≠ []) : limitTagsArray l 250 ≠ [] := by
  rw [limitTagsArray_eq_take]
  intro hcontra
  rcases List.take_eq_nil_iff.mp hcontra with h250 | hl
  · exact absurd h250 (by decide)
  · exact h hl

set_option maxRecDepth 40000 in
/-- C10 counterexample: an API item given 251 filter-derived tags ends
with a non-empty tag list that does not contain `"Sandeep"` — the tag is
appended before the 250 cap and is truncated away. -/
theorem C10_counterexample :
    (fetchApiData [[("k", "a")]] ⟨List.replicate 251 "k::a"⟩ []).map
      (fun p => (p.tags.contains "Sandeep", p.tags.isEmpty)) = [(false, false)] := by
  decide

/-- C10 (amended): every product produced by the API transformer has a
non-empty tags array; `"Sandeep"` is always present in the pre-cap tag
list (products with no tags receive `["default", "Sandeep"]`, others get
`"Sandeep"` appended when absent), and it survives into the final tags
whenever the pre-cap list has at most 250 entries — beyond that the cap
can truncate it away. -/
theorem C10_sandeep_tag :
    ∀ (km : List (String × String)) (fl : ImportFilters) (item : Item),
      (transformApiItem km fl item).tags ≠ []
      ∧ "Sandeep" ∈ sandeepTags km fl item
      ∧ ((sandeepTags km fl item).length ≤ 250 →
          "Sandeep" ∈ (transformApiItem km fl item).tags) := by
  intro km fl item
  have ht : (transformApiItem km fl item).tags = limitTagsArray (sandeepTags km fl item) 250 := rfl
  refine ⟨?_, sandeep_mem km fl item, ?_⟩
  · rw [ht]
    exact limitTagsArray_ne_nil _ (List.ne_nil_of_mem (sandeep_mem km fl item))
  · intro hlen
    rw [ht, limitTagsArray, if_pos hlen]
    exact sandeep_mem km fl item

/-- Witness for C10 on an API item with no tags and no filters. -/
theorem C10_sandeep_tag_witness :
    "Sandeep" ∈ (transformApiItem [] ⟨[]⟩ []).tags :=
  (C10_sandeep_tag [] ⟨[]⟩ []).2.2 (by decide)

end SupplierImport
